import Mathlib

/-!
Verification development for the `almanach_v1` static-site builder
(`src/build.py`).  The build script reads an XML file of country records,
normalizes each `<staat>` element into a nested dict/list/string structure
(`parse_element`), flattens fields into display sections
(`build_sections` / `recursive_render`), and emits one page per country
together with slugs, descriptions, FAQ metadata, JSON-LD and a sitemap.

The embedding below translates those Python functions into Lean.  Python
values that flow through the pipeline (str / list / dict) are modelled by
the inductive type `Val`; dicts are insertion-ordered association lists,
exactly as Python 3.7+ dicts behave.  Python truthiness, `str()`,
`.strip()`, `.capitalize()` and `dict.get` are modelled by the `py*`
helpers.  Unicode-dependent primitives (`unicodedata.normalize("NFKD")`,
`str.lower`, `str.strip`) are modelled on the ASCII fragment that the
claims exercise: NFKD is the identity there and combining marks are the
U+0300–U+036F block.
-/

namespace Almanach

/-- A Python value as used by the build script: a string, a list, or an
insertion-ordered dict (association list, keys unique for dicts produced
by the normalizer). -/
inductive Val : Type where
  | str : String → Val
  | list : List Val → Val
  | dict : List (String × Val) → Val

/-- One country record: the normalized dict of a `<staat>` element. -/
abbrev Record := List (String × Val)

/-- `d.get(k)` / `d[k]` on an insertion-ordered dict: first binding of `k`. -/
def pyGet (d : Record) (k : String) : Option Val :=
  match d with
  | [] => none
  | (k0, v) :: rest => if k0 = k then some v else pyGet rest k

/-- Removing a key from a dict (used to state "field absent" properties). -/
def pyErase (d : Record) (k : String) : Record :=
  d.filter (fun p => p.1 ≠ k)

/-- Python truthiness of a value: non-empty string / list / dict. -/
def truthy : Val → Bool
  | .str s => s ≠ ""
  | .list l => !l.isEmpty
  | .dict m => !m.isEmpty

/-- Python truthiness of a `dict.get` result (`None` is falsy). -/
def truthyO : Option Val → Bool
  | none => false
  | some v => truthy v

mutual
/-- `repr()` of a value, as Python prints nested lists/dicts inside
`str()` of a container (string escaping inside reprs is not modelled;
no claim depends on it). -/
def pyRepr : Val → String
  | .str s => "\x27" ++ s ++ "\x27"
  | .list l => "[" ++ String.intercalate ", " (pyReprList l) ++ "]"
  | .dict m => "\x7b" ++ String.intercalate ", " (pyReprEntries m) ++ "\x7d"

/-- The element reprs of a list. -/
def pyReprList : List Val → List String
  | [] => []
  | v :: vs => pyRepr v :: pyReprList vs

/-- The `key: value` reprs of a dict. -/
def pyReprEntries : List (String × Val) → List String
  | [] => []
  | (k, v) :: vs => ("\x27" ++ k ++ "\x27: " ++ pyRepr v) :: pyReprEntries vs
end

/-- `str()` of a value: a string prints as itself, containers via `repr`. -/
def pyStr : Val → String
  | .str s => s
  | v => pyRepr v

/-- `str()` applied to a `dict.get` result. -/
def pyStrO : Option Val → String
  | none => "None"
  | some v => pyStr v

/-- `get_single_value` (build.py line 340): first element of a list
(empty string for an empty list), otherwise the value itself. -/
def get_single_value : Option Val → Option Val
  | some (.list l) =>
      match l with
      | [] => some (.str "")
      | x :: _ => some x
  | v => v

/-! ## Tree Normalizer: `parse_element` (build.py lines 109–130)

XML elements are modelled with an optional text and a child list; the
normalizer ignores the text of an element that has children, exactly as
the Python code does. -/

/-- An XML element: tag, optional text, children (in document order). -/
inductive Xml : Type where
  | node : String → Option String → List Xml → Xml

/-- Tag of an element. -/
def Xml.tag : Xml → String
  | .node t _ _ => t

/-- Text of an element (`elem.text`, may be absent). -/
def Xml.text : Xml → Option String
  | .node _ tx _ => tx

/-- Children of an element. -/
def Xml.children : Xml → List Xml
  | .node _ _ cs => cs

/-- One insertion step of `parse_element`: if `tag` is already bound, the
existing binding is promoted to a list (if not one already) and the new
value appended in place; otherwise the pair is appended at the end. -/
def insertVal (out : Record) (tag : String) (v : Val) : Record :=
  match out with
  | [] => [(tag, v)]
  | (k, w) :: rest =>
      if k = tag then
        match w with
        | .list l => (k, .list (l ++ [v])) :: rest
        | w0 => (k, .list [w0, v]) :: rest
      else (k, w) :: insertVal rest tag v

mutual
/-- `parse_element` (build.py lines 109–130): an element with children
becomes a dict built child by child via `insertVal`; a leaf becomes its
trimmed text (empty string when the text is absent). -/
def parse_element : Xml → Val
  | .node _ tx [] => .str ((tx.getD "").trim)
  | .node _ _ (c :: cs) => .dict (parse_children (c :: cs) [])

/-- The fold over children inside `parse_element`. -/
def parse_children : List Xml → Record → Record
  | [], out => out
  | c :: cs, out => parse_children cs (insertVal out c.tag (parse_element c))
end

/-- The dict `parse_element` builds for a non-empty child list. -/
def parseDict (cs : List Xml) : Record :=
  parse_children cs []

/-- The key list of a record, in insertion order. -/
def keysOf (d : Record) : List String :=
  d.map (fun p => p.1)

/-- First-occurrence de-duplication of a tag list, mirroring the key
order a Python dict acquires while `parse_element` inserts. -/
def firstOcc (l : List String) : List String :=
  l.foldl (fun acc t => if t ∈ acc then acc else acc ++ [t]) []

/-- The values of all children carrying a given tag, normalized, in
document order. -/
def collectVals (cs : List Xml) (t : String) : List Val :=
  (cs.filter (fun c => c.tag = t)).map parse_element

/-- What the claim says a tag maps to: the single normalized value when
the tag occurs once, the list of all values when it repeats. -/
def specLookup (cs : List Xml) (t : String) : Option Val :=
  match collectVals cs t with
  | [] => none
  | [v] => some v
  | vs => some (.list vs)

/-! ## Field Catalog (build.py lines 44–97) -/

/-- `FIELD_LABELS`: XML tag → display label; `none` models Python `None`
(field not displayed). -/
def FIELD_LABELS : List (String × Option String) := [
  ("id", none),
  ("hname", none),
  ("sname", some "Staatenname"),
  ("tzone", some "Zeitzone"),
  ("flaeche", some "Fläche in km²"),
  ("einwzahl", some "Anzahl der Einwohner"),
  ("einwdicht", some "Einwohner pro km²"),
  ("hauptstadt", some "Hauptstadt"),
  ("amtssprache", some "Amtssprache"),
  ("gliederung", some "Verwaltungsgliederung"),
  ("staedte", some "Wichtige Städte"),
  ("autokennz", some "Autokennzeichen | ISO-Code"),
  ("waehrung", some "Währung"),
  ("natfeier", some "Nationalfeiertag"),
  ("geolage", some "Geografische Lage"),
  ("hoechpunkt", some "Höchster Punkt"),
  ("klima", some "Klima"),
  ("staatsform", some "Staatsform"),
  ("oberhaupt", some "Staatsoberhaupt"),
  ("regchef", some "Regierungschef"),
  ("aussen", some "Außenminister"),
  ("botschaft", some "Botschaft"),
  ("parteireg", some "Regierungskoalition"),
  ("legislative", some "Legislative"),
  ("verfassung", some "Jahr der Verfassung"),
  ("wahlrecht", some "Wahlrecht"),
  ("bevanteil", some "Alter"),
  ("bevverteil", some "Verteilung"),
  ("bevwachst", some "Wachstum"),
  ("altmedian", some "Altersmedian"),
  ("lebenserw", some "Lebenserwartung"),
  ("alpharate", some "Alphabetenrate"),
  ("ethgruppen", some "Gruppen"),
  ("religion", some "Religionen"),
  ("sprache", some "Sprachen"),
  ("gesamtbip", some "BIP"),
  ("wachstbip", some "BIP-Wachstum"),
  ("einwbne", some "BIP/Kopf"),
  ("inflation", some "Inflation"),
  ("ausshandel", some "Außenhandel"),
  ("sektorbip", some "Anteil BIP nach Sektoren"),
  ("arblos", some "Arbeitslosenquote"),
  ("energverbr", some "CO₂-Emission/Kopf"),
  ("erneuerbar", some "Stromerzeugung aus Erneuerbarer Energie"),
  ("gid", none),
  ("ghname", some "Name"),
  ("gflaeche", some "Fläche in km²"),
  ("geinwzahl", some "Anzahl der Einwohner"),
  ("ghauptstadt", some "Hauptstadt"),
  ("gstatus", some "Status"),
  ("gregierung", some "Regierungschef")]

/-- `FIELD_LABELS.get(key, key)`: the catalog entry, or the key itself
for an unknown key; `none` is Python `None` (a suppressed field). -/
def fieldLabelRaw (k : String) : Option String :=
  match List.lookup k FIELD_LABELS with
  | some v => v
  | none => some k

/-- `SECTION_ORDER` (build.py lines 100–106). -/
def SECTION_ORDER : List (String × List String) := [
  ("Basisdaten", ["sname", "tzone", "flaeche", "einwzahl", "einwdicht", "hauptstadt",
                  "amtssprache", "gliederung", "staedte", "autokennz", "waehrung", "natfeier"]),
  ("Geografie", ["geolage", "hoechpunkt", "klima"]),
  ("Politik", ["staatsform", "oberhaupt", "regchef", "aussen", "botschaft", "parteireg",
               "legislative", "verfassung", "wahlrecht"]),
  ("Bevölkerung", ["bevanteil", "bevverteil", "bevwachst", "altmedian", "lebenserw",
                   "alpharate", "ethgruppen", "religion", "sprache"]),
  ("Wirtschaft", ["gesamtbip", "wachstbip", "einwbne", "inflation", "ausshandel",
                  "sektorbip", "arblos", "energverbr", "erneuerbar"])]

/-- Python `str.capitalize()`: first character upper-cased, the rest
lower-cased (ASCII fragment). -/
def pyCapitalize (s : String) : String :=
  match s.data with
  | [] => ""
  | c :: rest => String.mk (c.toUpper :: rest.map Char.toLower)

/-- Python `"  " * level`. -/
def strMul (s : String) (n : Nat) : String :=
  String.join (List.replicate n s)

/-! ## Recursive label/value renderer (build.py lines 132–202) -/

mutual
/-- `recursive_render(key, val, level)`: flat list of (label, value)
rows for one field.  `ghname`/`gueber2` become pseudo-heading rows,
`gueber1` and suppressed fields render to nothing, strings render when
their trimmed text is non-empty, lists and dicts recurse. -/
def recursive_render (key : String) (val : Val) (level : Nat) : List (String × String) :=
  if key = "ghname" then
    match val with
    | .str s => if s.trim ≠ "" then [("───2", s.trim)] else []
    | _ => []
  else if key = "gueber2" then
    match val with
    | .str s => if s.trim ≠ "" then [("───1", s.trim)] else []
    | _ => []
  else if key = "gueber1" then []
  else
    match fieldLabelRaw key with
    | none => []
    | some label_raw =>
      let label_text := if label_raw = "" then pyCapitalize key else label_raw
      let indent := strMul "  " level
      let display_label := indent ++ label_text
      match val with
      | .str s => if s.trim ≠ "" then [(display_label, s.trim)] else []
      | .list l =>
          (if key ≠ "gebiet" ∧ key ≠ "gebiete" then [(display_label, "")] else [])
            ++ renderListItems l indent level
      | .dict m =>
          (if key ≠ "gebiete" then [(display_label, "")] else [])
            ++ renderEntries m (if key ≠ "gebiete" then level + 1 else level)

/-- The loop over a list value's elements (build.py lines 180–191):
dict elements recurse over their keys one level deeper, other elements
become bullet rows. -/
def renderListItems (items : List Val) (indent : String) (level : Nat) :
    List (String × String) :=
  match items with
  | [] => []
  | .dict m :: rest => renderEntries m (level + 1) ++ renderListItems rest indent level
  | sub :: rest => (indent ++ "  •", (pyStr sub).trim) :: renderListItems rest indent level

/-- The loop over a dict value's entries (lines 198–201). -/
def renderEntries (entries : List (String × Val)) (level : Nat) :
    List (String × String) :=
  match entries with
  | [] => []
  | (k, v) :: rest => recursive_render k v level ++ renderEntries rest level
end

mutual
/-- `recursive_render` with the imperative `items` list made explicit:
`acc` is the list the Python code mutates, every `items.append(x)`
becomes `acc ++ [x]` and every `items.extend(...)` threads `acc` on.
Together with `recursive_render` it states that the renderer only ever
appends — it never rewrites state accumulated before the call. -/
def recursive_render_acc (acc : List (String × String)) (key : String) (val : Val)
    (level : Nat) : List (String × String) :=
  if key = "ghname" then
    match val with
    | .str s => if s.trim ≠ "" then acc ++ [("───2", s.trim)] else acc
    | _ => acc
  else if key = "gueber2" then
    match val with
    | .str s => if s.trim ≠ "" then acc ++ [("───1", s.trim)] else acc
    | _ => acc
  else if key = "gueber1" then acc
  else
    match fieldLabelRaw key with
    | none => acc
    | some label_raw =>
      let label_text := if label_raw = "" then pyCapitalize key else label_raw
      let indent := strMul "  " level
      let display_label := indent ++ label_text
      match val with
      | .str s => if s.trim ≠ "" then acc ++ [(display_label, s.trim)] else acc
      | .list l =>
          renderListItems_acc
            (if key ≠ "gebiet" ∧ key ≠ "gebiete" then acc ++ [(display_label, "")] else acc)
            l indent level
      | .dict m =>
          renderEntries_acc
            (if key ≠ "gebiete" then acc ++ [(display_label, "")] else acc)
            m (if key ≠ "gebiete" then level + 1 else level)

/-- Accumulator form of `renderListItems`. -/
def renderListItems_acc (acc : List (String × String)) (items : List Val)
    (indent : String) (level : Nat) : List (String × String) :=
  match items with
  | [] => acc
  | .dict m :: rest =>
      renderListItems_acc (renderEntries_acc acc m (level + 1)) rest indent level
  | sub :: rest =>
      renderListItems_acc (acc ++ [(indent ++ "  •", (pyStr sub).trim)]) rest indent level

/-- Accumulator form of `renderEntries`. -/
def renderEntries_acc (acc : List (String × String)) (entries : List (String × Val))
    (level : Nat) : List (String × String) :=
  match entries with
  | [] => acc
  | (k, v) :: rest => renderEntries_acc (recursive_render_acc acc k v level) rest level
end

/-! ## Section Builder: `build_sections` (build.py lines 204–277) -/

/-- A named section: title and ordered (label, value) rows. -/
abbrev Section := String × List (String × String)

/-- The catalog pass for one key (build.py lines 212–218): a fact is
collected when the value is a string with non-empty trimmed content and
the catalog label is truthy.  `keyUsed` below is exactly this test. -/
def catalogFact (d : Record) (k : String) : Option (String × String) :=
  match pyGet d k with
  | some (.str v) =>
      if v.trim = "" then none
      else
        match fieldLabelRaw k with
        | some lbl => if lbl = "" then none else some (lbl, v.trim)
        | none => none
  | _ => none

/-- Whether the catalog pass marks `k` as used (a fact was appended). -/
def keyUsed (d : Record) (k : String) : Bool :=
  (catalogFact d k).isSome

/-- All keys the catalog pass consumed (`used_keys`). -/
def usedKeys (d : Record) : List String :=
  ((SECTION_ORDER.map (fun st => st.2)).flatten).filter (fun k => keyUsed d k)

/-- Step 1 of `build_sections`: the fixed catalog sections, each omitted
when it collects no facts. -/
def catalogSections (d : Record) : List Section :=
  SECTION_ORDER.filterMap (fun st =>
    let facts := st.2.filterMap (catalogFact d)
    if facts.isEmpty then none else some (st.1, facts))

/-- Step 2 of `build_sections` (lines 222–233): every remaining
top-level entry, except `id` and `gebiete`, flattened via
`recursive_render` when its value is truthy.  Records built by the
normalizer have unique keys, so iterating the entries equals Python's
iteration over `d.keys()` with indexing. -/
def residualFacts (d : Record) : List (String × String) :=
  ((d.filter (fun p =>
      !(usedKeys d).contains p.1 && p.1 ≠ "id" && p.1 ≠ "gebiete")).map
    (fun p => if truthy p.2 then recursive_render p.1 p.2 0 else [])).flatten

/-- Step 3 helper: the territory blocks (lines 236–239): the `gebiete`
value if truthy, wrapped in a one-element list unless already a list. -/
def gebieteBlocks (d : Record) : List Val :=
  match pyGet d "gebiete" with
  | none => []
  | some g => if truthy g then (match g with | .list l => l | v => [v]) else []

/-- Title of a territory block (line 246): first `gueber1` value or the
literal fallback, stringified and trimmed. -/
def blockTitle (b : Record) : String :=
  let t := get_single_value (pyGet b "gueber1")
  (if truthyO t then pyStrO t else "Gebiete").trim

/-- The `gebiet` items of a block (lines 256–258), list-wrapped. -/
def gebietItems (b : Record) : List Val :=
  match pyGet b "gebiet" with
  | none => []
  | some (.list l) => l
  | some v => [v]

/-- Body facts of one territory block (lines 249–267): the `gueber2`
header when the key is present, then each item rendered (dict items via
`recursive_render` over their keys at level 0, truthy non-dict items as
an "Info" row). -/
def blockFacts (b : Record) : List (String × String) :=
  (match pyGet b "gueber2" with
   | some g2 => recursive_render "gueber2" g2 0
   | none => [])
  ++ ((gebietItems b).map (fun item =>
        match item with
        | .dict m => renderEntries m 0
        | v => if truthy v then [("Info", pyStr v)] else [])).flatten

/-- Appending rows to the last section (`sections[-1][1].extend(...)`). -/
def appendToLast (secs : List Section) (facts : List (String × String)) : List Section :=
  match secs with
  | [] => []
  | [(t, fs)] => [(t, fs ++ facts)]
  | s :: rest => s :: appendToLast rest facts

/-- One iteration of the territory loop (lines 241–275): non-dict blocks
are skipped, zero-fact blocks are skipped, a block whose title equals the
immediately preceding emitted section's title is merged into it,
otherwise a new section is appended. -/
def gebietStep (secs : List Section) (blk : Val) : List Section :=
  match blk with
  | .dict b =>
      let title := blockTitle b
      let facts := blockFacts b
      if facts.isEmpty then secs
      else
        match secs.getLast? with
        | some last =>
            if last.1 = title then appendToLast secs facts
            else secs ++ [(title, facts)]
        | none => secs ++ [(title, facts)]
  | _ => secs

/-- Step 3 of `build_sections`: the fold of `gebietStep` over the blocks. -/
def gebietePass (secs : List Section) (blocks : List Val) : List Section :=
  blocks.foldl gebietStep secs

/-- `build_sections(d)` (build.py lines 204–277). -/
def build_sections (d : Record) : List Section :=
  let secs := catalogSections d
  let extra := residualFacts d
  let secs := secs ++ (if extra.isEmpty then [] else [("Weitere Informationen", extra)])
  gebietePass secs (gebieteBlocks d)

/-! ## Page Emitter: slugs (build.py lines 287–292 and 331–338) -/

/-- A character the regex class `[a-z0-9]` accepts. -/
def isSlugChar (c : Char) : Bool :=
  (Char.ofNat 97 ≤ c && c ≤ Char.ofNat 122) || (Char.ofNat 48 ≤ c && c ≤ Char.ofNat 57)

/-- A combining mark as `unicodedata.combining` flags it on the Latin
diacritics the dataset uses (the U+0300–U+036F block). -/
def isCombining (c : Char) : Bool :=
  0x300 ≤ c.val && c.val ≤ 0x36F

/-- Collapsing each run of `-` to a single `-` (the effect of
`re.sub` replacing each maximal run of excluded characters by one `-`,
after the per-character marking below). -/
def squeezeDashes : List Char → List Char
  | [] => []
  | c :: rest =>
      match rest with
      | [] => [c]
      | c2 :: _ =>
          if c = '-' && c2 = '-' then squeezeDashes rest
          else c :: squeezeDashes rest

/-- Dropping a given character from both ends (`.strip("-")`). -/
def stripChar (ch : Char) (l : List Char) : List Char :=
  ((l.dropWhile (fun c => c = ch)).reverse.dropWhile (fun c => c = ch)).reverse

/-- `slugify(s)` (build.py lines 287–292): trim, lower-case, fold
diacritics (NFKD modelled as the identity on the ASCII fragment,
followed by dropping combining marks), replace every run of characters
outside `[a-z0-9]` by one hyphen, trim hyphens, and fall back to
`"unbekannt"` when nothing remains. -/
def slugify (s : String) : String :=
  let t := s.trim.toLower
  let chars := t.data.filter (fun c => !isCombining c)
  let marked := chars.map (fun c => if isSlugChar c then c else '-')
  let core := stripChar '-' (squeezeDashes marked)
  if core.isEmpty then "unbekannt" else String.mk core

/-- Updating one binding of the slug registry in place. -/
def bumpSlug : List (String × Nat) → String → Nat → List (String × Nat)
  | [], _, _ => []
  | (k, m) :: rest, base, n =>
      if k = base then (base, n) :: rest else (k, m) :: bumpSlug rest base n

/-- `unique_slug(name)` (build.py lines 332–338) with the process-wide
registry `used_slugs` made explicit: a fresh base slug is registered
with count 1 and returned unchanged; on collision the count is bumped
and the suffixed slug returned.  The suffixed slug itself is never
registered. -/
def unique_slug (used : List (String × Nat)) (name : String) : String × List (String × Nat) :=
  let base := slugify name
  match List.lookup base used with
  | none => (base, used ++ [(base, 1)])
  | some n => (base ++ "-" ++ toString (n + 1), bumpSlug used base (n + 1))

/-- The slugs the emitter loop assigns to a run of country names, in
input order, starting from an empty registry. -/
def assignSlugs (names : List String) : List String :=
  (names.foldl
    (fun acc nm =>
      let r := unique_slug acc.2 nm
      (acc.1 ++ [r.1], r.2))
    (([], []) : List String × List (String × Nat))).1

/-! ## Page Emitter: name, description, FAQ (build.py lines 350–396) -/

/-- The display name (lines 352–353): `hname` via `get_single_value`,
falling back to `"Unbekannt"` when falsy; non-string values are
stringified where the code interpolates them. -/
def nameOf (d : Record) : String :=
  let v := get_single_value (pyGet d "hname")
  if truthyO v then pyStrO v else "Unbekannt"

/-- Taking the first `n` characters of a string (Python `s[:160]`). -/
def strTake (s : String) (n : Nat) : String :=
  String.mk (s.data.take n)

/-- The meta description (lines 362–371): subtitle or fallback sentence,
plus `Hauptstadt:`/`Einwohner:` parts joined by a middle dot; the
truncation to 160 characters is applied inside the
`if description_parts:` branch only. -/
def descriptionOf (d : Record) : String :=
  let name := nameOf d
  let subtitle := get_single_value (pyGet d "sname")
  let hauptstadt := get_single_value (pyGet d "hauptstadt")
  let einw := get_single_value (pyGet d "einwzahl")
  let description_parts :=
    (if truthyO hauptstadt then ["Hauptstadt: " ++ pyStrO hauptstadt] else [])
      ++ (if truthyO einw then ["Einwohner: " ++ pyStrO einw] else [])
  let description :=
    if truthyO subtitle then pyStrO subtitle
    else "Fakten und Steckbrief zu " ++ name ++ "."
  if description_parts.isEmpty then description
  else strTake (description ++ " – " ++ String.intercalate " · " description_parts) 160

/-- The untruncated description string, assembled exactly as the code
concatenates it inside the `if description_parts:` branch. -/
def descriptionFull (d : Record) : String :=
  let name := nameOf d
  let subtitle := get_single_value (pyGet d "sname")
  let hauptstadt := get_single_value (pyGet d "hauptstadt")
  let einw := get_single_value (pyGet d "einwzahl")
  let description_parts :=
    (if truthyO hauptstadt then ["Hauptstadt: " ++ pyStrO hauptstadt] else [])
      ++ (if truthyO einw then ["Einwohner: " ++ pyStrO einw] else [])
  let description :=
    if truthyO subtitle then pyStrO subtitle
    else "Fakten und Steckbrief zu " ++ name ++ "."
  description ++ " – " ++ String.intercalate " · " description_parts

/-- The subtitle-or-fallback base of the description (line 369). -/
def descriptionBase (d : Record) : String :=
  let subtitle := get_single_value (pyGet d "sname")
  if truthyO subtitle then pyStrO subtitle
  else "Fakten und Steckbrief zu " ++ nameOf d ++ "."

/-- Python `a or b` on `dict.get` results. -/
def pyOr (a b : Option Val) : Option Val :=
  if truthyO a then a else b

/-- The index-card hint (build.py lines 507–508):
`d.get("hauptstadt") or d.get("flaeche") or ""`, then the first element
when the result is a list.  The list branch is reached only with a
non-empty list, since an empty list is falsy in the `or` chain. -/
def hintVal (d : Record) : Val :=
  match pyOr (pyOr (pyGet d "hauptstadt") (pyGet d "flaeche")) (some (.str "")) with
  | some (.list l) => l.headD (.str "")
  | some v => v
  | none => .str ""

/-- `str(hint)` as stored on the index card (line 512). -/
def hint (d : Record) : String :=
  pyStr (hintVal d)

/-- One FAQ question/answer pair. -/
structure FaqItem where
  question : String
  answer : String
deriving DecidableEq

/-- `add_faq` (lines 377–390): when the field's single value is truthy,
one pair with the question template interpolated with the country name
and the answer template interpolated with the value. -/
def add_faq (d : Record) (name : String) (qpre qpost : String) (key : String)
    (label : String) : Option FaqItem :=
  let val := get_single_value (pyGet d key)
  if truthyO val then
    some { question := qpre ++ name ++ qpost,
           answer := label ++ " " ++ pyStrO val ++ "." }
  else none

/-- The `faq_items` list after the five `add_faq` calls
(lines 392–396), in call order. -/
def faqItems (d : Record) (name : String) : List FaqItem :=
  [add_faq d name "Wie viele Einwohner hat " "?" "einwzahl" "Die Einwohnerzahl beträgt ca.",
   add_faq d name "Was ist die Hauptstadt von " "?" "hauptstadt" "Die Hauptstadt ist",
   add_faq d name "Welche Währung hat " "?" "waehrung" "Die Währung ist",
   add_faq d name "Welche Sprache spricht man in " "?" "amtssprache" "Die Amtssprache ist",
   add_faq d name "Wie groß ist " "?" "flaeche" "Die Fläche beträgt"].filterMap id

/-- The fixed question templates, keys and answer templates of the five
`add_faq` calls, in call order. -/
def FAQ_DEFS : List (String × String × String) := [
  ("Wie viele Einwohner hat ", "einwzahl", "Die Einwohnerzahl beträgt ca."),
  ("Was ist die Hauptstadt von ", "hauptstadt", "Die Hauptstadt ist"),
  ("Welche Währung hat ", "waehrung", "Die Währung ist"),
  ("Welche Sprache spricht man in ", "amtssprache", "Die Amtssprache ist"),
  ("Wie groß ist ", "flaeche", "Die Fläche beträgt")]

/-- Whether a recognized fact is present in the sense of `add_faq`. -/
def faqPresent (d : Record) (key : String) : Bool :=
  truthyO (get_single_value (pyGet d key))

/-- The pair `add_faq` emits for a present fact. -/
def faqPair (d : Record) (name : String) (t : String × String × String) : FaqItem :=
  { question := t.1 ++ name ++ "?",
    answer := t.2.2 ++ " " ++ pyStrO (get_single_value (pyGet d t.2.1)) ++ "." }

/-! ## Page Emitter: flag-code resolution (build.py lines 20–41, 398–405) -/

/-- `ISO3_TO_ISO2` (build.py lines 20–41). -/
def ISO3_TO_ISO2 : List (String × String) := [
  ("AFG", "af"), ("ALB", "al"), ("DZA", "dz"), ("AND", "ad"), ("AGO", "ao"),
  ("ATG", "ag"), ("ARG", "ar"), ("ARM", "am"), ("AUS", "au"), ("AUT", "at"),
  ("AZE", "az"), ("BHS", "bs"), ("BHR", "bh"), ("BGD", "bd"), ("BRB", "bb"),
  ("BLR", "by"), ("BEL", "be"), ("BLZ", "bz"), ("BEN", "bj"), ("BTN", "bt"),
  ("BOL", "bo"), ("BIH", "ba"), ("BWA", "bw"), ("BRA", "br"), ("BRN", "bn"),
  ("BGR", "bg"), ("BFA", "bf"), ("BDI", "bi"), ("CPV", "cv"), ("KHM", "kh"),
  ("CMR", "cm"), ("CAN", "ca"), ("CAF", "cf"), ("TCD", "td"), ("CHL", "cl"),
  ("CHN", "cn"), ("COL", "co"), ("COM", "km"), ("COG", "cg"), ("COD", "cd"),
  ("CRI", "cr"), ("CIV", "ci"), ("HRV", "hr"), ("CUB", "cu"), ("CYP", "cy"),
  ("CZE", "cz"), ("DNK", "dk"), ("DJI", "dj"), ("DMA", "dm"), ("DOM", "do"),
  ("ECU", "ec"), ("EGY", "eg"), ("SLV", "sv"), ("GNQ", "gq"), ("ERI", "er"),
  ("EST", "ee"), ("SWZ", "sz"), ("ETH", "et"), ("FJI", "fj"), ("FIN", "fi"),
  ("FRA", "fr"), ("GAB", "ga"), ("GMB", "gm"), ("GEO", "ge"), ("DEU", "de"),
  ("GHA", "gh"), ("GRC", "gr"), ("GRD", "gd"), ("GTM", "gt"), ("GIN", "gn"),
  ("GNB", "gw"), ("GUY", "gy"), ("HTI", "ht"), ("HND", "hn"), ("HUN", "hu"),
  ("ISL", "is"), ("IND", "in"), ("IDN", "id"), ("IRN", "ir"), ("IRQ", "iq"),
  ("IRL", "ie"), ("ISR", "il"), ("ITA", "it"), ("JAM", "jm"), ("JPN", "jp"),
  ("JOR", "jo"), ("KAZ", "kz"), ("KEN", "ke"), ("KIR", "ki"), ("PRK", "kp"),
  ("KOR", "kr"), ("KWT", "kw"), ("KGZ", "kg"), ("LAO", "la"), ("LVA", "lv"),
  ("LBN", "lb"), ("LSO", "ls"), ("LBR", "lr"), ("LBY", "ly"), ("LIE", "li"),
  ("LTU", "lt"), ("LUX", "lu"), ("MDG", "mg"), ("MWI", "mw"), ("MYS", "my"),
  ("MDV", "mv"), ("MLI", "ml"), ("MLT", "mt"), ("MHL", "mh"), ("MRT", "mr"),
  ("MUS", "mu"), ("MEX", "mx"), ("FSM", "fm"), ("MDA", "md"), ("MCO", "mc"),
  ("MNG", "mn"), ("MNE", "me"), ("MAR", "ma"), ("MOZ", "mz"), ("MMR", "mm"),
  ("NAM", "na"), ("NRU", "nr"), ("NPL", "np"), ("NLD", "nl"), ("NZL", "nz"),
  ("NIC", "ni"), ("NER", "ne"), ("NGA", "ng"), ("MKD", "mk"), ("NOR", "no"),
  ("OMN", "om"), ("PAK", "pk"), ("PLW", "pw"), ("PAN", "pa"), ("PNG", "pg"),
  ("PRY", "py"), ("PER", "pe"), ("PHL", "ph"), ("POL", "pl"), ("PRT", "pt"),
  ("QAT", "qa"), ("ROU", "ro"), ("RUS", "ru"), ("RWA", "rw"), ("KNA", "kn"),
  ("LCA", "lc"), ("VCT", "vc"), ("WSM", "ws"), ("SMR", "sm"), ("STP", "st"),
  ("SAU", "sa"), ("SEN", "sn"), ("SRB", "rs"), ("SYC", "sc"), ("SLE", "sl"),
  ("SGP", "sg"), ("SVK", "sk"), ("SVN", "si"), ("SLB", "sb"), ("SOM", "so"),
  ("ZAF", "za"), ("SSD", "ss"), ("ESP", "es"), ("LKA", "lk"), ("SDN", "sd"),
  ("SUR", "sr"), ("SWE", "se"), ("CHE", "ch"), ("SYR", "sy"), ("TWN", "tw"),
  ("TJK", "tj"), ("TZA", "tz"), ("THA", "th"), ("TLS", "tl"), ("TGO", "tg"),
  ("TON", "to"), ("TTO", "tt"), ("TUN", "tn"), ("TUR", "tr"), ("TKM", "tm"),
  ("TUV", "tv"), ("UGA", "ug"), ("UKR", "ua"), ("ARE", "ae"), ("GBR", "gb"),
  ("USA", "us"), ("URY", "uy"), ("UZB", "uz"), ("VUT", "vu"), ("VAT", "va"),
  ("VEN", "ve"), ("VNM", "vn"), ("YEM", "ye"), ("ZMB", "zm"), ("ZWE", "zw")]

/-- `"|" in container` for a list: Python membership, true when some
element equals the one-character string. -/
def listHasPipe (l : List Val) : Bool :=
  l.any (fun v => match v with | .str s => s = "|" | _ => false)

/-- The flag-code resolution step (build.py lines 399–405), with its
possible runtime failure made explicit: `autokennz = d.get("autokennz", "")`
followed by the `"|" in autokennz` / `elif autokennz` branches.  For a
string the step succeeds and yields the token after the last pipe (or
the stripped string).  For a non-empty list or dict the taken branch
calls `.split`/`.strip` on that container and raises `AttributeError`. -/
def flagIso3 (d : Record) : Except String String :=
  match (pyGet d "autokennz").getD (.str "") with
  | .str s =>
      if s.data.contains '|' then .ok (((s.splitOn "|").getLastD "").trim)
      else if s ≠ "" then .ok s.trim
      else .ok ""
  | .list l =>
      if listHasPipe l then .error "AttributeError: list object has no attribute split"
      else if !l.isEmpty then .error "AttributeError: list object has no attribute strip"
      else .ok ""
  | .dict m =>
      if (m.map (fun p => p.1)).contains "|" then
        .error "AttributeError: dict object has no attribute split"
      else if !m.isEmpty then .error "AttributeError: dict object has no attribute strip"
      else .ok ""

/-- `flag_code` (line 405): the two-letter code, or empty when the
three-letter code is unknown, propagating the resolution failure. -/
def flag_code (d : Record) : Except String String :=
  (flagIso3 d).map (fun iso3 => ((List.lookup iso3 ISO3_TO_ISO2).getD "").toLower)

/-! ## Page Emitter: JSON-LD country node (build.py lines 411–431, 476–481) -/

/-- A JSON value as `json.dumps` serializes the schema graph. -/
inductive Json : Type where
  | null
  | str : String → Json
  | obj : List (String × Json) → Json
  | arr : List Json → Json

/-- Whether a JSON value is the `None` placeholder. -/
def Json.isNull : Json → Bool
  | .null => true
  | _ => false

mutual
/-- `clean_obj` (lines 476–481): entries whose value is `None` are
dropped from every object (the test runs before the recursive call,
as in the Python dict comprehension); lists are cleaned element-wise. -/
def clean_obj : Json → Json
  | .null => .null
  | .str s => .str s
  | .obj l => .obj (cleanEntries l)
  | .arr l => .arr (cleanList l)

/-- The object comprehension of `clean_obj`. -/
def cleanEntries : List (String × Json) → List (String × Json)
  | [] => []
  | (k, v) :: rest =>
      if v.isNull then cleanEntries rest else (k, clean_obj v) :: cleanEntries rest

/-- The list comprehension of `clean_obj`. -/
def cleanList : List Json → List Json
  | [] => []
  | v :: rest => clean_obj v :: cleanList rest
end

/-- The flag image URL (line 408), empty flag code meaning no image. -/
def flagUrl (fc : String) : Json :=
  if fc ≠ "" then .str ("https://flagcdn.com/w640/" ++ fc ++ ".png") else .null

/-- `country_schema` (lines 411–431) before `clean_obj`: the base dict
with `name`, `alternateName`, `description` and `identifier` — the
`identifier` is the value of the suppressed `id` field — followed by the
conditionally added capital/population/area/language/image properties,
in insertion order.  The successfully resolved flag code is passed in
(`fc`); values the code leaves as Python objects are stringified. -/
def country_schema (d : Record) (canonical : String) (fc : String) : Json :=
  let subtitle := get_single_value (pyGet d "sname")
  let hauptstadt := get_single_value (pyGet d "hauptstadt")
  let einw := get_single_value (pyGet d "einwzahl")
  let flaeche := get_single_value (pyGet d "flaeche")
  let amtssprache := get_single_value (pyGet d "amtssprache")
  let idVal := get_single_value (pyGet d "id")
  .obj ([
    ("@type", .str "Country"),
    ("@id", .str (canonical ++ "#country")),
    ("name", .str (nameOf d)),
    ("alternateName", if truthyO subtitle then .str (pyStrO subtitle) else .null),
    ("description", .str (descriptionOf d)),
    ("identifier", if truthyO idVal then .str (pyStrO idVal) else .null)]
  ++ (if truthyO hauptstadt then
        [("capital", .obj [("@type", .str "City"), ("name", .str (pyStrO hauptstadt))])]
      else [])
  ++ (if truthyO einw then [("population", .str (pyStrO einw))] else [])
  ++ (if truthyO flaeche then [("areaServed", .str (pyStrO flaeche))] else [])
  ++ (if truthyO amtssprache then [("knowsLanguage", .str (pyStrO amtssprache))] else [])
  ++ (if fc ≠ "" then [("image", flagUrl fc)] else []))

/-! ## Sitemap (build.py lines 549–557) -/

/-- Lexicographic order on strings by code point, as Python `sorted`
compares strings. -/
def pyStrLe (a b : String) : Prop := a.data ≤ b.data

instance : DecidableRel pyStrLe := fun a b => by
  unfold pyStrLe; infer_instance

instance : IsTotal String pyStrLe := ⟨fun a b => le_total a.data b.data⟩

instance : IsTrans String pyStrLe := ⟨fun _ _ _ h1 h2 => le_trans h1 h2⟩

/-- The sorted URL list of the sitemap (lines 549–553): the site root
plus one full URL per index card, sorted lexicographically. -/
def sitemap_urls (baseUrl : String) (cardUrls : List String) : List String :=
  List.insertionSort pyStrLe
    ((baseUrl ++ "/") :: cardUrls.map (fun u => baseUrl ++ u))

/-- The `<url><loc>` lines of the sitemap body, one per URL. -/
def sitemap_items (urls : List String) : List String :=
  urls.map (fun u => "<url><loc>" ++ u ++ "</loc></url>")

/-! ## Concrete instances used by the witnesses and counterexamples -/

/-- The spec's scenario record: name, capital and population only. -/
def bspRecord : Record :=
  [("hname", .str "Beispielland"), ("hauptstadt", .str "Hauptstadt X"),
   ("einwzahl", .str "1000000")]

/-- A 161-character subtitle. -/
def subtitle161 : String :=
  String.mk (List.replicate 161 'a')

/-- A record whose subtitle alone exceeds 160 characters and which has
no capital and no population. -/
def longSubtitleRecord : Record :=
  [("hname", .str "Langland"), ("sname", .str subtitle161)]

/-- A record carrying a non-empty suppressed `id` field. -/
def idRecord : Record :=
  [("id", .str "abc123"), ("hname", .str "Atlantis"), ("hauptstadt", .str "Burg")]

/-- A record carrying a suppressed `gid` field next to ordinary fields. -/
def gidRecord : Record :=
  [("hname", .str "Xland"), ("gid", .str "7"), ("hauptstadt", .str "Ystadt")]

/-- A record whose `autokennz` tag repeated in the XML and was folded
into a list by the normalizer. -/
def autokennzListRecord : Record :=
  [("hname", .str "Testland"), ("autokennz", .list [.str "D | DEU", .str "F | FRA"])]

/-- The children of a `<staat>` element with a repeated tag. -/
def repeatedTagChildren : List Xml :=
  [.node "autokennz" (some "D | DEU") [], .node "hauptstadt" (some " Berlin ") [],
   .node "autokennz" (some "F | FRA") []]

/-- A territory block titled `Britische Gebiete` with one island. -/
def blockA : Record :=
  [("gueber1", .str "Britische Gebiete"), ("gebiet", .dict [("ghname", .str "Insel A")])]

/-- A second block with the identical derived title. -/
def blockB : Record :=
  [("gueber1", .str "Britische Gebiete"), ("gebiet", .dict [("ghname", .str "Insel B")])]

/-- A block with a different derived title. -/
def blockC : Record :=
  [("gueber1", .str "Andere Gebiete"), ("gebiet", .dict [("ghname", .str "Insel C")])]

/-- A record with a field whose XML text was whitespace-only, hence
normalized to the empty string. -/
def blankCapitalRecord : Record :=
  [("hname", .str "Leerland"), ("hauptstadt", .str ""), ("flaeche", .str "500")]

/-! ## Basic lemmas about dict access -/

theorem pyGet_erase_self (d : Record) (k : String) : pyGet (pyErase d k) k = none := by
  induction d with
  | nil => rfl
  | cons p rest ih =>
      by_cases h : p.1 = k
      · simp [pyErase, h] at ih ⊢
        exact ih
      · simpa [pyErase, pyGet, h] using ih

theorem pyGet_erase_ne (d : Record) (k k2 : String) (h : k2 ≠ k) :
    pyGet (pyErase d k) k2 = pyGet d k2 := by
  induction d with
  | nil => rfl
  | cons p rest ih =>
      by_cases hp : p.1 = k
      · simpa [pyErase, pyGet, hp, Ne.symm h] using ih
      · by_cases hq : p.1 = k2
        · simp [pyErase, pyGet, hp, hq, h]
        · simpa [pyErase, pyGet, hp, hq] using ih

theorem pyGet_mem (d : Record) (k : String) (v : Val) (h : pyGet d k = some v) :
    (k, v) ∈ d := by
  induction d with
  | nil => simp [pyGet] at h
  | cons p rest ih =>
      by_cases hp : p.1 = k
      · cases p with
        | mk a b =>
            simp at hp
            simp [pyGet, hp] at h
            subst hp
            subst h
            exact List.mem_cons_self _ _
      · simp [pyGet, hp] at h
        exact List.mem_cons_of_mem _ (ih h)

theorem mem_pyGet_of_nodup (d : Record) (k : String) (v : Val)
    (hu : (keysOf d).Nodup) (h : (k, v) ∈ d) : pyGet d k = some v := by
  induction d with
  | nil => simp at h
  | cons p rest ih =>
      rw [keysOf, List.map_cons, List.nodup_cons] at hu
      rcases List.mem_cons.mp h with h0 | h0
      · rw [← h0]
        simp [pyGet]
      · have hk : p.1 ≠ k := by
          intro he
          exact hu.1 (by rw [he]; exact List.mem_map_of_mem _ h0)
        simp [pyGet, hk]
        exact ih hu.2 h0

/-! ## C1: slug uniqueness -/

/-- C1: the slug registry of `unique_slug` never registers a suffixed
slug, so a later country whose base slug equals an earlier suffixed
slug receives the same final slug: the run
`["Atlantis", "Atlantis", "Atlantis 2"]` assigns `atlantis-2` twice and
the claimed uniqueness of final URLs fails. -/
theorem unique_slug_collision :
    assignSlugs ["Atlantis", "Atlantis", "Atlantis 2"]
      = ["atlantis", "atlantis-2", "atlantis-2"]
    ∧ ¬ (assignSlugs ["Atlantis", "Atlantis", "Atlantis 2"]).Nodup := by
  have h : assignSlugs ["Atlantis", "Atlantis", "Atlantis 2"]
      = ["atlantis", "atlantis-2", "atlantis-2"] := by with_unfolding_all rfl
  refine ⟨h, ?_⟩
  rw [h]
  decide

/-! ## C10: flag-code resolution on a folded `autokennz` -/

/-- C10: a `<staat>` whose `autokennz` tag repeats normalizes to a dict
binding `autokennz` to a list; the flag-code resolution step then takes
the truthy branch and calls `.strip()` on that list, raising
`AttributeError` — it does not terminate without error. -/
theorem flag_resolution_crashes :
    parse_element (.node "staat" none repeatedTagChildren)
      = .dict [("autokennz", .list [.str "D | DEU", .str "F | FRA"]),
               ("hauptstadt", .str "Berlin")]
    ∧ flagIso3 [("autokennz", .list [.str "D | DEU", .str "F | FRA"]),
                ("hauptstadt", .str "Berlin")]
      = .error "AttributeError: list object has no attribute strip"
    ∧ flagIso3 autokennzListRecord
      = .error "AttributeError: list object has no attribute strip" := by
  refine ⟨?_, ?_, ?_⟩ <;> with_unfolding_all rfl

/-! ## C3: description truncation -/

theorem strTake_length_le (s : String) (n : Nat) : (strTake s n).length ≤ n := by
  show (s.data.take n).length ≤ n
  simp

/-- C3 counterexample: a record whose subtitle alone has 161 characters
and which has no capital/population parts keeps the untruncated
161-character description — the stored description is not the first 160
characters of the untruncated string, and its length exceeds 160. -/
theorem description_not_truncated :
    (descriptionOf longSubtitleRecord).length = 161
    ∧ ¬ (descriptionOf longSubtitleRecord).length ≤ 160 := by
  have h : (descriptionOf longSubtitleRecord).length = 161 := by
    with_unfolding_all rfl
  exact ⟨h, by omega⟩

/-- C3 amended: the `[:160]` truncation is applied only inside the
`if description_parts:` branch — when a capital or population part is
present the stored description is exactly the first 160 characters of
the untruncated string (hence at most 160 characters long); with no
parts the stored description is the subtitle-or-fallback base string,
untruncated. -/
theorem description_truncation_amended (d : Record) :
    (truthyO (get_single_value (pyGet d "hauptstadt")) = true
        ∨ truthyO (get_single_value (pyGet d "einwzahl")) = true →
      descriptionOf d = strTake (descriptionFull d) 160
        ∧ (descriptionOf d).length ≤ 160)
    ∧ (truthyO (get_single_value (pyGet d "hauptstadt")) = false →
       truthyO (get_single_value (pyGet d "einwzahl")) = false →
      descriptionOf d = descriptionBase d) := by
  constructor
  · intro h
    have hne :
        ((if truthyO (get_single_value (pyGet d "hauptstadt")) then
            ["Hauptstadt: " ++ pyStrO (get_single_value (pyGet d "hauptstadt"))] else [])
          ++ (if truthyO (get_single_value (pyGet d "einwzahl")) then
            ["Einwohner: " ++ pyStrO (get_single_value (pyGet d "einwzahl"))] else [])).isEmpty
          = false := by
      rcases h with h | h <;> rcases h1 : truthyO (get_single_value (pyGet d "hauptstadt")) <;>
        rcases h2 : truthyO (get_single_value (pyGet d "einwzahl")) <;>
          simp_all
    constructor
    · simp only [descriptionOf, descriptionFull, hne]
      rfl
    · simp only [descriptionOf, hne]
      exact strTake_length_le _ 160
  · intro h1 h2
    simp only [descriptionOf, descriptionBase, h1, h2]
    rfl

/-- C3 witness: the scenario record has a capital part, so its stored
description is the 160-character prefix of the untruncated string. -/
theorem description_truncation_witness :
    descriptionOf bspRecord = strTake (descriptionFull bspRecord) 160
    ∧ (descriptionOf bspRecord).length ≤ 160 :=
  (description_truncation_amended bspRecord).1 (Or.inl (by with_unfolding_all rfl))

/-! ## C7: the FAQ block -/

/-- C7: the FAQ block holds exactly one question/answer pair per
recognized fact (population, capital, currency, official language,
area) whose value is present, in that fixed order, each pair built from
the fixed question template interpolated with the country name and the
answer template interpolated with the field value; absent facts
contribute nothing.  In particular the scenario record (name, capital,
population only) yields exactly two entries, population first. -/
theorem faq_items_spec (d : Record) (name : String) :
    faqItems d name
      = (FAQ_DEFS.filter (fun t => faqPresent d t.2.1)).map (faqPair d name)
    ∧ faqItems bspRecord "Beispielland"
      = [{ question := "Wie viele Einwohner hat Beispielland?",
           answer := "Die Einwohnerzahl beträgt ca. 1000000." },
         { question := "Was ist die Hauptstadt von Beispielland?",
           answer := "Die Hauptstadt ist Hauptstadt X." }] := by
  constructor
  · cases h1 : faqPresent d "einwzahl" <;> cases h2 : faqPresent d "hauptstadt" <;>
    cases h3 : faqPresent d "waehrung" <;> cases h4 : faqPresent d "amtssprache" <;>
    cases h5 : faqPresent d "flaeche" <;>
      simp_all [faqItems, add_faq, FAQ_DEFS, faqPair, faqPresent]
  · with_unfolding_all rfl

/-! ## C8: the sitemap -/

/-- C8: the sitemap URL list is a permutation of the site root plus one
full URL per emitted country page, it is sorted lexicographically by
full URL, and the rendered body has exactly one `url`/`loc` entry per
page. -/
theorem sitemap_sorted_one_per_page (baseUrl : String) (cardUrls : List String) :
    (sitemap_urls baseUrl cardUrls).Perm
        ((baseUrl ++ "/") :: cardUrls.map (fun u => baseUrl ++ u))
    ∧ List.Sorted pyStrLe (sitemap_urls baseUrl cardUrls)
    ∧ (sitemap_items (sitemap_urls baseUrl cardUrls)).length = 1 + cardUrls.length := by
  refine ⟨List.perm_insertionSort _ _, List.sorted_insertionSort _ _, ?_⟩
  have h := (List.perm_insertionSort pyStrLe
    ((baseUrl ++ "/") :: cardUrls.map (fun u => baseUrl ++ u))).length_eq
  simp only [sitemap_items, sitemap_urls, List.length_map]
  rw [h]
  simp [Nat.add_comm]

/-! ## C6: territory blocks, adjacency-only merge -/

theorem appendToLast_concat (secs : List Section) (t : String)
    (fs g : List (String × String)) :
    appendToLast (secs ++ [(t, fs)]) g = secs ++ [(t, fs ++ g)] := by
  induction secs with
  | nil => rfl
  | cons s rest ih =>
      cases rest with
      | nil => rfl
      | cons s2 rest2 => simpa [appendToLast] using ih

/-- C6: in the territory pass, (i) a block producing zero facts changes
nothing; (ii) a block whose derived title equals the title of the
immediately preceding emitted section is appended to it; (iii) two
consecutive blocks with the identical derived title yield one section
with their facts concatenated in block order; (iv) the merge is
adjacency-only: a block with the same title separated by a block with a
different title starts a fresh section, so two sections with equal
titles coexist. -/
theorem territory_merge_adjacent_only :
    (∀ (secs : List Section) (b : Record) (blocks : List Val),
      blockFacts b = [] →
      gebietePass secs (.dict b :: blocks) = gebietePass secs blocks)
    ∧ (∀ (secs : List Section) (s0 : Section) (b : Record),
      blockFacts b ≠ [] → secs.getLast? = some s0 → s0.1 = blockTitle b →
      gebietePass secs [.dict b] = appendToLast secs (blockFacts b))
    ∧ (∀ (secs : List Section) (b1 b2 : Record),
      blockFacts b1 ≠ [] → blockFacts b2 ≠ [] →
      blockTitle b2 = blockTitle b1 →
      (∀ s, secs.getLast? = some s → s.1 ≠ blockTitle b1) →
      gebietePass secs [.dict b1, .dict b2]
        = secs ++ [(blockTitle b1, blockFacts b1 ++ blockFacts b2)])
    ∧ (∀ (secs : List Section) (b1 b2 b3 : Record),
      blockFacts b1 ≠ [] → blockFacts b2 ≠ [] → blockFacts b3 ≠ [] →
      blockTitle b3 = blockTitle b1 → blockTitle b2 ≠ blockTitle b1 →
      (∀ s, secs.getLast? = some s → s.1 ≠ blockTitle b1) →
      (∀ s, secs.getLast? = some s → s.1 ≠ blockTitle b2) →
      gebietePass secs [.dict b1, .dict b2, .dict b3]
        = secs ++ [(blockTitle b1, blockFacts b1), (blockTitle b2, blockFacts b2),
                   (blockTitle b3, blockFacts b3)]) := by
  have hstep_skip : ∀ (secs : List Section) (b : Record), blockFacts b = [] →
      gebietStep secs (.dict b) = secs := by
    intro secs b hf
    simp [gebietStep, hf]
  have hstep_new : ∀ (secs : List Section) (b : Record), blockFacts b ≠ [] →
      (∀ s, secs.getLast? = some s → s.1 ≠ blockTitle b) →
      gebietStep secs (.dict b) = secs ++ [(blockTitle b, blockFacts b)] := by
    intro secs b hf hlast
    have hie : (blockFacts b).isEmpty = false := by
      cases hfe : blockFacts b with
      | nil => exact absurd hfe hf
      | cons f fs => rfl
    cases hl : secs.getLast? with
    | none => simp [gebietStep, hie, hl]
    | some s0 => simp [gebietStep, hie, hl, hlast s0 hl]
  have hstep_merge : ∀ (secs : List Section) (s0 : Section) (b : Record),
      blockFacts b ≠ [] → secs.getLast? = some s0 → s0.1 = blockTitle b →
      gebietStep secs (.dict b) = appendToLast secs (blockFacts b) := by
    intro secs s0 b hf hl ht
    have hie : (blockFacts b).isEmpty = false := by
      cases hfe : blockFacts b with
      | nil => exact absurd hfe hf
      | cons f fs => rfl
    simp [gebietStep, hie, hl, ht]
  refine ⟨?_, ?_, ?_, ?_⟩
  · intro secs b blocks hf
    simp [gebietePass, hstep_skip secs b hf]
  · intro secs s0 b hf hl ht
    simpa [gebietePass] using hstep_merge secs s0 b hf hl ht
  · intro secs b1 b2 hf1 hf2 ht hlast
    have h1 := hstep_new secs b1 hf1 hlast
    have h2 := hstep_merge (secs ++ [(blockTitle b1, blockFacts b1)])
      (blockTitle b1, blockFacts b1) b2 hf2 (by simp) (by simpa using ht.symm)
    simp only [gebietePass, List.foldl_cons, List.foldl_nil, h1, h2]
    rw [appendToLast_concat]
  · intro secs b1 b2 b3 hf1 hf2 hf3 ht31 ht21 hl1 hl2
    have h1 := hstep_new secs b1 hf1 hl1
    have h2 := hstep_new (secs ++ [(blockTitle b1, blockFacts b1)]) b2 hf2 ?h2last
    case h2last =>
      intro s hs
      simp at hs
      subst hs
      exact Ne.symm ht21
    have h3 := hstep_new
      ((secs ++ [(blockTitle b1, blockFacts b1)]) ++ [(blockTitle b2, blockFacts b2)])
      b3 hf3 ?h3last
    case h3last =>
      intro s hs
      simp at hs
      subst hs
      rw [ht31]
      exact ht21
    simp only [gebietePass, List.foldl_cons, List.foldl_nil, h1, h2, h3]
    simp

/-- C6 witness: two consecutive blocks titled `Britische Gebiete` merge
into one section with their facts in block order, while the same two
blocks separated by a differently titled block yield two separate
sections with the identical title. -/
theorem territory_merge_witness :
    gebietePass [] [.dict blockA, .dict blockB]
      = [("Britische Gebiete", [("───2", "Insel A"), ("───2", "Insel B")])]
    ∧ gebietePass [] [.dict blockA, .dict blockC, .dict blockB]
      = [("Britische Gebiete", [("───2", "Insel A")]),
         ("Andere Gebiete", [("───2", "Insel C")]),
         ("Britische Gebiete", [("───2", "Insel B")])] := by
  have hA : blockFacts blockA = [("───2", "Insel A")] := by with_unfolding_all rfl
  have hB : blockFacts blockB = [("───2", "Insel B")] := by with_unfolding_all rfl
  have hC : blockFacts blockC = [("───2", "Insel C")] := by with_unfolding_all rfl
  have tA : blockTitle blockA = "Britische Gebiete" := by with_unfolding_all rfl
  have tB : blockTitle blockB = "Britische Gebiete" := by with_unfolding_all rfl
  have tC : blockTitle blockC = "Andere Gebiete" := by with_unfolding_all rfl
  constructor
  · have h := territory_merge_adjacent_only.2.2.1 [] blockA blockB
      (by simp [hA]) (by simp [hB]) (by rw [tA, tB])
      (by intro s hs; simp at hs)
    rw [h, hA, hB, tA]
    rfl
  · have h := territory_merge_adjacent_only.2.2.2 [] blockA blockC blockB
      (by simp [hA]) (by simp [hC]) (by simp [hB])
      (by rw [tA, tB]) (by rw [tA, tC]; decide)
      (by intro s hs; simp at hs) (by intro s hs; simp at hs)
    rw [h, hA, hB, hC, tA, tB, tC]
    rfl

/-! ## C5: the Tree Normalizer invariant -/

theorem parse_element_not_list (e : Xml) (l : List Val) : parse_element e ≠ .list l := by
  cases e with
  | node t tx cs => cases cs <;> simp [parse_element]

theorem keysOf_cons (p : String × Val) (rest : Record) :
    keysOf (p :: rest) = p.1 :: keysOf rest := rfl

theorem pyGet_eq_none_iff (out : Record) (t : String) :
    pyGet out t = none ↔ t ∉ keysOf out := by
  induction out with
  | nil => simp [pyGet, keysOf]
  | cons p rest ih =>
      by_cases hp : p.1 = t
      · simp [pyGet, keysOf_cons, hp]
      · have ht : t ≠ p.1 := fun hh => hp hh.symm
        simp [pyGet, keysOf_cons, hp, ht, ih]

theorem insert_get_ne (out : Record) (tg t : String) (v : Val) (h : t ≠ tg) :
    pyGet (insertVal out tg v) t = pyGet out t := by
  induction out with
  | nil => simp [insertVal, pyGet, Ne.symm h]
  | cons p rest ih =>
      by_cases hp : p.1 = tg
      · cases hw : p.2 <;> simp [insertVal, pyGet, hp, hw, Ne.symm h]
      · by_cases hq : p.1 = t
        · simp [insertVal, pyGet, hp, hq, h]
        · simp [insertVal, pyGet, hp, hq]
          exact ih

theorem insert_get_none (out : Record) (tg : String) (v : Val)
    (h : pyGet out tg = none) : pyGet (insertVal out tg v) tg = some v := by
  induction out with
  | nil => simp [insertVal, pyGet]
  | cons p rest ih =>
      by_cases hp : p.1 = tg
      · simp [pyGet, hp] at h
      · simp [pyGet, hp] at h
        simp [insertVal, pyGet, hp]
        exact ih h

theorem insert_get_list (out : Record) (tg : String) (v : Val) (l : List Val)
    (h : pyGet out tg = some (.list l)) :
    pyGet (insertVal out tg v) tg = some (.list (l ++ [v])) := by
  induction out with
  | nil => simp [pyGet] at h
  | cons p rest ih =>
      by_cases hp : p.1 = tg
      · simp [pyGet, hp] at h
        simp [insertVal, pyGet, hp, h]
      · simp [pyGet, hp] at h
        simp [insertVal, pyGet, hp]
        exact ih h

theorem insert_get_other (out : Record) (tg : String) (v w : Val)
    (h : pyGet out tg = some w) (hw : ∀ l, w ≠ .list l) :
    pyGet (insertVal out tg v) tg = some (.list [w, v]) := by
  induction out with
  | nil => simp [pyGet] at h
  | cons p rest ih =>
      by_cases hp : p.1 = tg
      · simp [pyGet, hp] at h
        cases hval : p.2 with
        | list l => rw [hval] at h; exact absurd h.symm (hw l)
        | str s => simp [insertVal, pyGet, hp, hval, h, ← h, hval]
        | dict m => simp [insertVal, pyGet, hp, hval, h, ← h, hval]
      · simp [pyGet, hp] at h
        simp [insertVal, pyGet, hp]
        exact ih h

theorem insert_keys (out : Record) (tg : String) (v : Val) :
    keysOf (insertVal out tg v)
      = if tg ∈ keysOf out then keysOf out else keysOf out ++ [tg] := by
  induction out with
  | nil => simp [insertVal, keysOf]
  | cons p rest ih =>
      by_cases hp : p.1 = tg
      · cases hw : p.2 <;> simp [insertVal, keysOf_cons, hp, hw]
      · have hne : tg ≠ p.1 := fun h => hp h.symm
        simp only [insertVal, hp, if_false, keysOf_cons, ih, List.mem_cons, hne,
          false_or, ite_false]
        by_cases hm : tg ∈ keysOf rest <;> simp [hm]

theorem firstOcc_append_singleton (xs : List String) (t : String) :
    firstOcc (xs ++ [t])
      = if t ∈ firstOcc xs then firstOcc xs else firstOcc xs ++ [t] := by
  simp [firstOcc, List.foldl_append]

theorem firstOcc_nodup (l : List String) : (firstOcc l).Nodup := by
  have h : ∀ (l : List String) (acc : List String), acc.Nodup →
      (l.foldl (fun acc t => if t ∈ acc then acc else acc ++ [t]) acc).Nodup := by
    intro l
    induction l with
    | nil => intro acc h; simpa using h
    | cons t rest ih =>
        intro acc hacc
        by_cases hm : t ∈ acc
        · simpa [hm] using ih acc hacc
        · have : (acc ++ [t]).Nodup := by
            simp [List.nodup_append, hacc, hm]
          simpa [hm] using ih (acc ++ [t]) this
  exact h l [] List.nodup_nil

theorem collectVals_append_singleton (done : List Xml) (c : Xml) (t : String) :
    collectVals (done ++ [c]) t
      = collectVals done t ++ (if c.tag = t then [parse_element c] else []) := by
  by_cases h : c.tag = t <;> simp [collectVals, List.filter_append, h]

theorem collectVals_not_list (cs : List Xml) (t : String) (w : Val)
    (h : w ∈ collectVals cs t) (l : List Val) : w ≠ .list l := by
  rcases List.mem_map.mp h with ⟨c, _, hc⟩
  rw [← hc]
  exact parse_element_not_list c l

/-- The invariant of the child-insertion fold of `parse_element`. -/
theorem parse_children_spec (todo done : List Xml) (out : Record)
    (h1 : ∀ t, pyGet out t = specLookup done t)
    (h2 : keysOf out = firstOcc (done.map Xml.tag)) :
    (∀ t, pyGet (parse_children todo out) t = specLookup (done ++ todo) t)
    ∧ keysOf (parse_children todo out) = firstOcc ((done ++ todo).map Xml.tag) := by
  induction todo generalizing done out with
  | nil => simpa [parse_children] using ⟨h1, h2⟩
  | cons c todo ih =>
      have hmain := ih (done ++ [c]) (insertVal out c.tag (parse_element c)) ?hg ?hk
      case hg =>
        intro t
        by_cases ht : t = c.tag
        · subst ht
          rcases hc : collectVals done c.tag with _ | ⟨w, _ | ⟨w2, ws⟩⟩
          · have h0 : pyGet out c.tag = none := by
              rw [h1 c.tag]; simp [specLookup, hc]
            rw [insert_get_none out c.tag (parse_element c) h0]
            simp [specLookup, collectVals_append_singleton, hc]
          · have h0 : pyGet out c.tag = some w := by
              rw [h1 c.tag]; simp [specLookup, hc]
            have hw : ∀ l, w ≠ Val.list l :=
              collectVals_not_list done c.tag w
                (by rw [hc]; exact List.mem_singleton_self w)
            rw [insert_get_other out c.tag (parse_element c) w h0 hw]
            simp [specLookup, collectVals_append_singleton, hc]
          · have h0 : pyGet out c.tag = some (.list (w :: w2 :: ws)) := by
              rw [h1 c.tag]; simp [specLookup, hc]
            rw [insert_get_list out c.tag (parse_element c) _ h0]
            simp [specLookup, collectVals_append_singleton, hc]
        · rw [insert_get_ne out c.tag t (parse_element c) ht, h1 t]
          have hct : ¬ c.tag = t := fun hh => ht hh.symm
          simp [specLookup, collectVals_append_singleton, hct]
      case hk =>
        rw [insert_keys, h2, List.map_append, List.map_singleton,
          firstOcc_append_singleton]
      simpa using hmain

/-- C5: `parse_element` returns the trimmed text (empty if absent) for
an element without children; for an element with children it returns a
dict whose keys are unique and appear in first-occurrence order of the
child tags, in which a tag occurring once is bound to its normalized
value and a tag occurring `n > 1` times is bound to the list of its `n`
normalized values in document order. -/
theorem parse_element_spec (tag : String) (tx : Option String) (cs : List Xml) :
    (cs = [] → parse_element (.node tag tx cs) = .str ((tx.getD "").trim))
    ∧ (cs ≠ [] →
        parse_element (.node tag tx cs) = .dict (parseDict cs)
        ∧ (keysOf (parseDict cs)).Nodup
        ∧ keysOf (parseDict cs) = firstOcc (cs.map Xml.tag)
        ∧ ∀ t, pyGet (parseDict cs) t = specLookup cs t) := by
  constructor
  · intro h
    subst h
    rfl
  · intro h
    have hspec := parse_children_spec cs [] []
      (fun t => by simp [pyGet, specLookup, collectVals])
      (by simp [keysOf, firstOcc])
    simp only [List.nil_append] at hspec
    have hk : keysOf (parseDict cs) = firstOcc (cs.map Xml.tag) := by
      simpa [parseDict] using hspec.2
    have hget : ∀ t, pyGet (parseDict cs) t = specLookup cs t := by
      simpa [parseDict] using hspec.1
    refine ⟨?_, ?_, hk, hget⟩
    · cases cs with
      | nil => exact absurd rfl h
      | cons c cs2 => rfl
    · rw [hk]
      exact firstOcc_nodup _

/-- C5 witness: a `<staat>` with a repeated `autokennz` child and one
`hauptstadt` child normalizes to a two-key dict in first-occurrence
order, the repeated tag bound to the list of both values in document
order — as `parse_element_spec` states at this input. -/
theorem parse_element_spec_witness :
    parse_element (.node "staat" none repeatedTagChildren)
      = .dict (parseDict repeatedTagChildren)
    ∧ (keysOf (parseDict repeatedTagChildren)).Nodup
    ∧ keysOf (parseDict repeatedTagChildren)
      = firstOcc (repeatedTagChildren.map Xml.tag)
    ∧ ∀ t, pyGet (parseDict repeatedTagChildren) t = specLookup repeatedTagChildren t :=
  (parse_element_spec "staat" none repeatedTagChildren).2 (by simp [repeatedTagChildren])

/-! ## C9: the renderer is deterministic and append-only -/

theorem renderAcc_spec (n : Nat) :
    (∀ (key : String) (val : Val) (level : Nat) (acc : List (String × String)),
      sizeOf val ≤ n →
      recursive_render_acc acc key val level = acc ++ recursive_render key val level)
    ∧ (∀ (items : List Val) (indent : String) (level : Nat) (acc : List (String × String)),
      sizeOf items ≤ n →
      renderListItems_acc acc items indent level = acc ++ renderListItems items indent level)
    ∧ (∀ (entries : List (String × Val)) (level : Nat) (acc : List (String × String)),
      sizeOf entries ≤ n →
      renderEntries_acc acc entries level = acc ++ renderEntries entries level) := by
  induction n with
  | zero =>
      refine ⟨?_, ?_, ?_⟩
      · intro key val level acc h
        cases val <;> simp at h
      · intro items indent level acc h
        cases items <;> simp at h
      · intro entries level acc h
        cases entries <;> simp at h
  | succ n ih =>
      refine ⟨?_, ?_, ?_⟩
      · intro key val level acc h
        by_cases h1 : key = "ghname"
        · cases val with
          | str s =>
              simp [recursive_render, recursive_render_acc, h1]
              split <;> simp
          | list l => simp [recursive_render, recursive_render_acc, h1]
          | dict m => simp [recursive_render, recursive_render_acc, h1]
        · by_cases h2 : key = "gueber2"
          · cases val with
            | str s =>
                simp [recursive_render, recursive_render_acc, h1, h2]
                split <;> simp
            | list l => simp [recursive_render, recursive_render_acc, h1, h2]
            | dict m => simp [recursive_render, recursive_render_acc, h1, h2]
          · by_cases h3 : key = "gueber1"
            · cases val <;> simp [recursive_render, recursive_render_acc, h1, h2, h3]
            · cases hl : fieldLabelRaw key with
              | none =>
                  cases val <;>
                    simp [recursive_render, recursive_render_acc, h1, h2, h3, hl]
              | some lbl =>
                  cases val with
                  | str s =>
                      simp [recursive_render, recursive_render_acc, h1, h2, h3, hl]
                      split <;> simp
                  | list l =>
                      have hs : sizeOf l ≤ n := by simp at h; omega
                      simp [recursive_render, recursive_render_acc, h1, h2, h3, hl,
                        ih.2.1 l _ level _ hs]
                      split <;> simp
                  | dict m =>
                      have hs : sizeOf m ≤ n := by simp at h; omega
                      simp [recursive_render, recursive_render_acc, h1, h2, h3, hl,
                        ih.2.2 m _ _ hs]
                      split <;> simp
      · intro items indent level acc h
        cases items with
        | nil => simp [renderListItems, renderListItems_acc]
        | cons v rest =>
            have hrest : sizeOf rest ≤ n := by simp at h; omega
            cases v with
            | str s =>
                simp [renderListItems, renderListItems_acc,
                  ih.2.1 rest indent level _ hrest]
            | list l =>
                simp [renderListItems, renderListItems_acc,
                  ih.2.1 rest indent level _ hrest]
            | dict m =>
                have hm : sizeOf m ≤ n := by simp at h; omega
                simp [renderListItems, renderListItems_acc,
                  ih.2.1 rest indent level _ hrest, ih.2.2 m (level + 1) _ hm]
      · intro entries level acc h
        cases entries with
        | nil => simp [renderEntries, renderEntries_acc]
        | cons p rest =>
            have hrest : sizeOf rest ≤ n := by simp at h; omega
            have hv : sizeOf p.2 ≤ n := by
              cases p with | mk a b => simp at h ⊢; omega
            cases p with
            | mk a b =>
                simp at hv
                simp [renderEntries, renderEntries_acc,
                  ih.2.2 rest level _ hrest, ih.1 a b level _ hv]

/-- C9: `recursive_render` is deterministic and side-effect-free: two
calls with the same key/value/level return the same rows, and in the
state-explicit form (`recursive_render_acc`, which threads the `items`
list the Python code mutates) the renderer only appends to the incoming
state and its own output does not depend on it — the embedding is a
pure function of its arguments, matching a renderer that reads but
never mutates the record or any other state. -/
theorem renderer_deterministic_pure :
    ∀ (key : String) (val : Val) (level : Nat) (acc : List (String × String)),
      recursive_render key val level = recursive_render key val level
      ∧ recursive_render_acc acc key val level = acc ++ recursive_render key val level :=
  fun key val level acc =>
    ⟨rfl, (renderAcc_spec (sizeOf val)).1 key val level acc (Nat.le_refl _)⟩

/-! ## Invariance of the Section Builder under removing an invisible field -/

theorem filter_map_flatten {α β : Type} (p : α → Bool) (f : α → List β) (l : List α) :
    ((l.filter p).map f).flatten
      = (l.map (fun x => if p x then f x else [])).flatten := by
  induction l with
  | nil => rfl
  | cons x rest ih =>
      by_cases hx : p x <;> simp [hx, ih]

theorem flatten_map_erase {α : Type} (d : Record) (k : String) (f : String × Val → List α)
    (hv : ∀ v, (k, v) ∈ d → f (k, v) = []) :
    (((pyErase d k).map f)).flatten = ((d.map f)).flatten := by
  induction d with
  | nil => rfl
  | cons p rest ih =>
      have ihr := ih (fun v hm => hv v (List.mem_cons_of_mem p hm))
      by_cases hp : p.1 = k
      · have hpe : (k, p.2) = p := by rw [← hp]
        have hpf : f p = [] := by
          rw [← hpe]
          exact hv p.2 (by rw [hpe]; exact List.mem_cons_self _ _)
        calc ((pyErase (p :: rest) k).map f).flatten
            = ((pyErase rest k).map f).flatten := by simp [pyErase, hp]
          _ = (rest.map f).flatten := ihr
          _ = f p ++ (rest.map f).flatten := by rw [hpf]; simp
          _ = (((p :: rest).map f)).flatten := by simp
      · calc ((pyErase (p :: rest) k).map f).flatten
            = f p ++ ((pyErase rest k).map f).flatten := by simp [pyErase, hp]
          _ = f p ++ (rest.map f).flatten := by rw [ihr]
          _ = (((p :: rest).map f)).flatten := by simp

theorem residualFacts_eq_map (d : Record) :
    residualFacts d = (d.map (fun p =>
      if !(usedKeys d).contains p.1 && p.1 ≠ "id" && p.1 ≠ "gebiete" then
        (if truthy p.2 then recursive_render p.1 p.2 0 else [])
      else [])).flatten := by
  rw [residualFacts, filter_map_flatten]

theorem catalogFact_none_of_absent (d : Record) (k : String)
    (h : pyGet d k = none) : catalogFact d k = none := by
  simp [catalogFact, h]

theorem catalogFact_erase (d : Record) (k : String) (hnone : catalogFact d k = none)
    (kk : String) : catalogFact (pyErase d k) kk = catalogFact d kk := by
  by_cases h : kk = k
  · subst h
    rw [catalogFact_none_of_absent (pyErase d kk) kk (pyGet_erase_self d kk), hnone]
  · simp [catalogFact, pyGet_erase_ne d k kk h]

theorem usedKeys_erase (d : Record) (k : String) (hnone : catalogFact d k = none) :
    usedKeys (pyErase d k) = usedKeys d := by
  have h : catalogFact (pyErase d k) = catalogFact d :=
    funext (catalogFact_erase d k hnone)
  simp only [usedKeys, keyUsed, h]

theorem catalogSections_erase (d : Record) (k : String)
    (hnone : catalogFact d k = none) :
    catalogSections (pyErase d k) = catalogSections d := by
  have h : catalogFact (pyErase d k) = catalogFact d :=
    funext (catalogFact_erase d k hnone)
  rw [catalogSections, catalogSections, h]

theorem gebieteBlocks_erase (d : Record) (k : String)
    (h : k ≠ "gebiete" ∨ pyGet d k = some (.str "")) :
    gebieteBlocks (pyErase d k) = gebieteBlocks d := by
  by_cases hg : k = "gebiete"
  · subst hg
    rcases h with h | h
    · exact absurd rfl h
    · simp [gebieteBlocks, pyGet_erase_self, h, truthy]
  · simp [gebieteBlocks, pyGet_erase_ne d k "gebiete" (fun hh => hg hh.symm)]

theorem residualFacts_erase (d : Record) (k : String)
    (hnone : catalogFact d k = none)
    (hv : ∀ v, (k, v) ∈ d → (if truthy v then recursive_render k v 0 else [])
      = ([] : List (String × String))) :
    residualFacts (pyErase d k) = residualFacts d := by
  rw [residualFacts_eq_map, residualFacts_eq_map, usedKeys_erase d k hnone]
  exact flatten_map_erase d k _ (fun v hm => by
    simp only []
    rw [hv v hm]
    simp)

/-- The combined invariance: removing a field that the catalog pass
ignores, that renders to nothing in the residual pass, and that is not
a truthy `gebiete` value, leaves `build_sections` unchanged. -/
theorem build_sections_erase (d : Record) (k : String)
    (hnone : catalogFact d k = none)
    (hv : ∀ v, (k, v) ∈ d → (if truthy v then recursive_render k v 0 else [])
      = ([] : List (String × String)))
    (hg : k ≠ "gebiete" ∨ pyGet d k = some (.str "")) :
    build_sections (pyErase d k) = build_sections d := by
  rw [build_sections, build_sections, catalogSections_erase d k hnone,
    residualFacts_erase d k hnone hv, gebieteBlocks_erase d k hg]

/-! ## C2: suppressed fields -/

theorem rr_labelnone (k : String) (v : Val) (hlab : fieldLabelRaw k = none)
    (level : Nat) : recursive_render k v level = [] := by
  have hg1 : k ≠ "ghname" := by
    intro he
    rw [he, show fieldLabelRaw "ghname" = some "Name" from by with_unfolding_all rfl]
      at hlab
    simp at hlab
  have hg2 : k ≠ "gueber2" := by
    intro he
    rw [he, show fieldLabelRaw "gueber2" = some "gueber2" from by with_unfolding_all rfl]
      at hlab
    simp at hlab
  have hg3 : k ≠ "gueber1" := by
    intro he
    rw [he, show fieldLabelRaw "gueber1" = some "gueber1" from by with_unfolding_all rfl]
      at hlab
    simp at hlab
  cases v <;> simp [recursive_render, hg1, hg2, hg3, hlab]

theorem catalogFact_none_of_labelnone (d : Record) (k : String)
    (hlab : fieldLabelRaw k = none) : catalogFact d k = none := by
  rcases hg : pyGet d k with _ | v
  · simp [catalogFact, hg]
  · cases v with
    | str s => simp [catalogFact, hg, hlab]
    | list l => simp [catalogFact, hg]
    | dict m => simp [catalogFact, hg]

theorem labelnone_ne (k kk : String) (hlab : fieldLabelRaw k = none) (lbl : String)
    (hkk : fieldLabelRaw kk = some lbl) : kk ≠ k := by
  intro he
  rw [← he, hkk] at hlab
  simp at hlab

theorem nameOf_erase_ne (d : Record) (k : String) (h : "hname" ≠ k) :
    nameOf (pyErase d k) = nameOf d := by
  simp [nameOf, pyGet_erase_ne d k "hname" h]

theorem descriptionOf_erase_ne (d : Record) (k : String) (h1 : "hname" ≠ k)
    (h2 : "sname" ≠ k) (h3 : "hauptstadt" ≠ k) (h4 : "einwzahl" ≠ k) :
    descriptionOf (pyErase d k) = descriptionOf d := by
  simp only [descriptionOf, nameOf, pyGet_erase_ne d k "hname" h1,
    pyGet_erase_ne d k "sname" h2, pyGet_erase_ne d k "hauptstadt" h3,
    pyGet_erase_ne d k "einwzahl" h4]

theorem country_schema_erase_ne (d : Record) (k canon fc : String) (h1 : "hname" ≠ k)
    (h2 : "sname" ≠ k) (h3 : "hauptstadt" ≠ k) (h4 : "einwzahl" ≠ k)
    (h5 : "flaeche" ≠ k) (h6 : "amtssprache" ≠ k) (h7 : "id" ≠ k) :
    country_schema (pyErase d k) canon fc = country_schema d canon fc := by
  simp only [country_schema, pyGet_erase_ne d k "sname" h2,
    pyGet_erase_ne d k "hauptstadt" h3, pyGet_erase_ne d k "einwzahl" h4,
    pyGet_erase_ne d k "flaeche" h5, pyGet_erase_ne d k "amtssprache" h6,
    pyGet_erase_ne d k "id" h7, nameOf_erase_ne d k h1,
    descriptionOf_erase_ne d k h1 h2 h3 h4]

theorem flag_code_erase_ne (d : Record) (k : String) (h : "autokennz" ≠ k) :
    flag_code (pyErase d k) = flag_code d := by
  simp only [flag_code, flagIso3, pyGet_erase_ne d k "autokennz" h]

/-- C2 counterexample: the `id` field is mapped to `None` (suppressed)
in the Field Catalog, yet for a record with a non-empty `id` the
serialized structured-data country node carries its value as the
`identifier` property — the suppressed field appears in the payload. -/
theorem suppressed_id_in_jsonld :
    fieldLabelRaw "id" = none
    ∧ pyGet idRecord "id" = some (.str "abc123")
    ∧ clean_obj (country_schema idRecord "CANON" "")
      = .obj [("@type", .str "Country"), ("@id", .str "CANON#country"),
              ("name", .str "Atlantis"),
              ("description",
                .str "Fakten und Steckbrief zu Atlantis. – Hauptstadt: Burg"),
              ("identifier", .str "abc123"),
              ("capital", .obj [("@type", .str "City"), ("name", .str "Burg")])] := by
  refine ⟨?_, ?_, ?_⟩ <;> with_unfolding_all rfl

/-- C2 amended: a field whose catalog label is `None` never appears in
any rendered section — `build_sections` is unchanged when the field is
removed from the record.  The same invariance holds for the
structured-data country node and the flag code for every suppressed key
other than `id` (whose value the code emits as the `identifier`
property, see the counterexample) and `hname` (which the code uses as
the page name). -/
theorem suppressed_fields_amended (d : Record) (k : String)
    (hlab : fieldLabelRaw k = none) :
    build_sections (pyErase d k) = build_sections d
    ∧ (k ≠ "id" → k ≠ "hname" →
        (∀ canon fc, country_schema (pyErase d k) canon fc = country_schema d canon fc)
        ∧ flag_code (pyErase d k) = flag_code d) := by
  constructor
  · refine build_sections_erase d k (catalogFact_none_of_labelnone d k hlab) ?_ ?_
    · intro v _
      rw [rr_labelnone k v hlab 0]
      simp
    · exact Or.inl (Ne.symm (labelnone_ne k "gebiete" hlab "gebiete"
        (by with_unfolding_all rfl)))
  · intro hid hhn
    constructor
    · intro canon fc
      exact country_schema_erase_ne d k canon fc (Ne.symm hhn)
        (labelnone_ne k "sname" hlab "Staatenname" (by with_unfolding_all rfl))
        (labelnone_ne k "hauptstadt" hlab "Hauptstadt" (by with_unfolding_all rfl))
        (labelnone_ne k "einwzahl" hlab "Anzahl der Einwohner"
          (by with_unfolding_all rfl))
        (labelnone_ne k "flaeche" hlab "Fläche in km²" (by with_unfolding_all rfl))
        (labelnone_ne k "amtssprache" hlab "Amtssprache" (by with_unfolding_all rfl))
        (Ne.symm hid)
    · exact flag_code_erase_ne d k
        (labelnone_ne k "autokennz" hlab "Autokennzeichen | ISO-Code"
          (by with_unfolding_all rfl))

/-- C2 witness: removing the suppressed `gid` field from a concrete
record leaves both the section list and the structured-data country
node unchanged. -/
theorem suppressed_fields_witness :
    build_sections (pyErase gidRecord "gid") = build_sections gidRecord
    ∧ country_schema (pyErase gidRecord "gid") "CANON" ""
      = country_schema gidRecord "CANON" "" := by
  have h := suppressed_fields_amended gidRecord "gid" (by with_unfolding_all rfl)
  exact ⟨h.1, (h.2 (by decide) (by decide)).1 "CANON" ""⟩

/-! ## C4: whitespace-only values are absent everywhere -/

theorem catalogFact_none_of_blank (d : Record) (k : String)
    (h : pyGet d k = some (.str "")) : catalogFact d k = none := by
  have ht : "".trim = "" := by with_unfolding_all rfl
  simp [catalogFact, h, ht]

theorem add_faq_erase (d : Record) (k : String) (h : pyGet d k = some (.str ""))
    (nm q1 q2 kk lbl : String) :
    add_faq (pyErase d k) nm q1 q2 kk lbl = add_faq d nm q1 q2 kk lbl := by
  by_cases hk : kk = k
  · subst hk
    simp [add_faq, pyGet_erase_self, h, get_single_value, truthyO, truthy]
  · simp [add_faq, pyGet_erase_ne d k kk hk]

theorem pyGet_read_erase (d : Record) (k : String) (h : pyGet d k = some (.str "")) :
    ∀ kk, pyGet (pyErase d k) kk = pyGet d kk
      ∨ (pyGet (pyErase d k) kk = none ∧ pyGet d kk = some (.str "")) := by
  intro kk
  by_cases hkk : kk = k
  · subst hkk
    exact Or.inr ⟨pyGet_erase_self d kk, h⟩
  · exact Or.inl (pyGet_erase_ne d k kk hkk)

theorem descriptionOf_erase_blank (d : Record) (k : String)
    (h : pyGet d k = some (.str "")) :
    descriptionOf (pyErase d k) = descriptionOf d := by
  have hr := pyGet_read_erase d k h
  rcases hr "hname" with h1 | ⟨h1a, h1b⟩ <;>
  rcases hr "sname" with h2 | ⟨h2a, h2b⟩ <;>
  rcases hr "hauptstadt" with h3 | ⟨h3a, h3b⟩ <;>
  rcases hr "einwzahl" with h4 | ⟨h4a, h4b⟩ <;>
    simp [descriptionOf, nameOf, get_single_value, truthyO, truthy, *]

theorem truthyO_none_eq : truthyO none = false := rfl

theorem truthyO_blank_eq : truthyO (some (.str "")) = false := rfl

theorem pyOr_none_eq_blank (y : Option Val) :
    pyOr none y = pyOr (some (.str "")) y := by
  simp [pyOr, truthyO_none_eq, truthyO_blank_eq]

theorem pyOr_blank_default (x : Option Val) :
    pyOr (pyOr x none) (some (.str ""))
      = pyOr (pyOr x (some (.str ""))) (some (.str "")) := by
  by_cases h : truthyO x = true <;>
    simp [pyOr, h, truthyO_none_eq, truthyO_blank_eq]

theorem hint_erase_blank (d : Record) (k : String)
    (h : pyGet d k = some (.str "")) :
    hint (pyErase d k) = hint d := by
  have hr := pyGet_read_erase d k h
  simp only [hint, hintVal]
  rcases hr "hauptstadt" with h1 | ⟨h1a, h1b⟩ <;>
  rcases hr "flaeche" with h2 | ⟨h2a, h2b⟩
  · rw [h1, h2]
  · rw [h1, h2a, h2b, pyOr_blank_default]
  · rw [h1a, h1b, h2, pyOr_none_eq_blank]
  · rw [h1a, h1b, h2a, h2b, pyOr_none_eq_blank, pyOr_blank_default]

/-- C4: a whitespace-only field is absent for every consumer.  The
normalizer trims leaf text, so a present-but-whitespace-only XML value
reaches the record as the empty string; and a record field bound to the
empty string contributes nothing anywhere: sections, FAQ pairs, the
description's capital/population parts and the index-card hint (which
falls through to the next candidate) are all exactly what they would be
with the field removed. -/
theorem whitespace_treated_absent :
    (∀ (tg : String) (tx : Option String), (tx.getD "").trim = "" →
      parse_element (.node tg tx []) = .str "")
    ∧ (∀ (d : Record) (k : String), (keysOf d).Nodup →
        pyGet d k = some (.str "") →
        build_sections (pyErase d k) = build_sections d
        ∧ (∀ nm, faqItems (pyErase d k) nm = faqItems d nm)
        ∧ descriptionOf (pyErase d k) = descriptionOf d
        ∧ hint (pyErase d k) = hint d) := by
  constructor
  · intro tg tx h
    simp [parse_element, h]
  · intro d k hu h
    refine ⟨?_, ?_, descriptionOf_erase_blank d k h, hint_erase_blank d k h⟩
    · refine build_sections_erase d k (catalogFact_none_of_blank d k h) ?_ (Or.inr h)
      intro v hm
      have hv := (mem_pyGet_of_nodup d k v hu hm).symm.trans h
      simp at hv
      subst hv
      simp [truthy]
    · intro nm
      simp [faqItems, add_faq_erase d k h]

/-- C4 witness: with a capital field normalized from whitespace-only
text to the empty string, the sections, FAQ list, description and hint
coincide with those of the record without the field — in particular the
hint falls through to the area field. -/
theorem whitespace_witness :
    parse_element (.node "hauptstadt" (some "   ") []) = .str ""
    ∧ build_sections (pyErase blankCapitalRecord "hauptstadt")
      = build_sections blankCapitalRecord
    ∧ faqItems (pyErase blankCapitalRecord "hauptstadt") "Leerland"
      = faqItems blankCapitalRecord "Leerland"
    ∧ hint (pyErase blankCapitalRecord "hauptstadt") = hint blankCapitalRecord
    ∧ hint blankCapitalRecord = "500" := by
  have h2 := whitespace_treated_absent.2 blankCapitalRecord "hauptstadt"
    (by simp [keysOf, blankCapitalRecord]) (by with_unfolding_all rfl)
  exact ⟨whitespace_treated_absent.1 "hauptstadt" (some "   ") (by with_unfolding_all rfl),
    h2.1, h2.2.1 "Leerland", h2.2.2.2, by with_unfolding_all rfl⟩

end Almanach
